import Mathlib

/-!
Shallow embedding of `smoke-tester/src/dut_definition.rs`: DUT definition
parsing (`RawDutDefinition`), resolution (`DutDefinition::from_raw_definition`)
and directory collection (`DutDefinition::collect`), together with models of
the external capabilities the module consumes (filesystem reads and
canonicalization, the probe-rs chip database search and exact fetch, and the
`DebugProbeSelector` grammar).
-/

set_option maxHeartbeats 1000000

/-- A character-list analogue of Rust's `str::starts_with`: does the first
list occur as the leading segment of the second? -/
def startsWithL : List Char → List Char → Bool
  | [], _ => true
  | _ :: _, [] => false
  | a :: as, b :: bs => a == b && startsWithL as bs

/-- Does `needle` occur as a contiguous chunk anywhere inside `hay`? Used to
state that an error message "surfaces" a query string or a file path. -/
def containsChunk (needle : List Char) : List Char → Bool
  | [] => needle.isEmpty
  | b :: bs => startsWithL needle (b :: bs) || containsChunk needle bs

/-- String form of `containsChunk`: `needle` occurs inside `hay`. -/
def containsStr (needle hay : String) : Bool :=
  containsChunk needle.data hay.data

/-- Split a character list at every occurrence of `sep` (models the component
splitting used by `Path::extension` and by path parsing). Always returns a
non-empty list of segments. -/
def splitOnChar (sep : Char) : List Char → List (List Char)
  | [] => [[]]
  | c :: cs =>
    match splitOnChar sep cs with
    | [] => [[]]
    | seg :: segs => if c == sep then [] :: seg :: segs else (c :: seg) :: segs

instance {ε α : Type} [DecidableEq ε] [DecidableEq α] : DecidableEq (Except ε α)
  | .error e₁, .error e₂ => decidable_of_iff (e₁ = e₂) (by simp)
  | .error _, .ok _ => .isFalse fun hc => Except.noConfusion hc
  | .ok _, .error _ => .isFalse fun hc => Except.noConfusion hc
  | .ok a₁, .ok a₂ => decidable_of_iff (a₁ = a₂) (by simp)

/-- Model of a filesystem path: Rust's `PathBuf`, reduced to whether the path
is absolute plus its list of components. -/
structure FsPath where
  absolute : Bool
  components : List String
deriving DecidableEq, Repr

/-- Rust `Path::extension` on a single file name: the segment after the last
dot, with `none` when there is no dot or when the only dot is leading (a
hidden file such as `.toml` has no extension). -/
def extOfName (name : String) : Option String :=
  match splitOnChar '.' name.data with
  | [] => none
  | [_] => none
  | [[], _] => none
  | parts => parts.getLast?.map fun l => ⟨l⟩

/-- Rust `Path::extension`: the extension of the last component. -/
def FsPath.extension (p : FsPath) : Option String :=
  p.components.getLast?.bind extOfName

/-- Rust `Path::parent`: drop the last component; `none` at a root/empty path. -/
def FsPath.parent (p : FsPath) : Option FsPath :=
  match p.components with
  | [] => none
  | _ => some ⟨p.absolute, p.components.dropLast⟩

/-- Rust `Path::join`: an absolute right operand replaces the left path. -/
def FsPath.join (p q : FsPath) : FsPath :=
  if q.absolute then q else ⟨p.absolute, p.components ++ q.components⟩

/-- Models `Path::new(".")`, the fallback base directory used when the source
file has no parent. -/
def curDirPath : FsPath := ⟨false, []⟩

/-- Rust `PathBuf::from` on a string: absolute iff it starts with `/`; empty
segments from repeated separators are dropped, as `Path::components` does. -/
def pathFromString (s : String) : FsPath :=
  { absolute := s.data.head? == some '/'
    components := ((splitOnChar '/' s.data).filter (fun l => !l.isEmpty)).map fun l => ⟨l⟩ }

/-- Render a path for diagnostics (Rust `Path::display`). -/
def joinComponents : List String → List Char
  | [] => []
  | [s] => s.data
  | s :: rest => s.data ++ '/' :: joinComponents rest

/-- String rendering of a path, as interpolated into error messages. -/
def pathString (p : FsPath) : String :=
  ⟨(if p.absolute then ['/'] else []) ++ joinComponents p.components⟩

/-- The TOML values a definition file can hold at a key (only the string /
non-string distinction matters to the schema). -/
inductive TomlValue where
  | str (s : String)
  | int (n : Int)
deriving DecidableEq, Repr

/-- A parsed TOML document: the top-level key/value table. -/
abbrev TomlDoc := List (String × TomlValue)

/-- First value bound to `key` in a document (TOML forbids duplicates). -/
def tomlLookup (key : String) : TomlDoc → Option TomlValue
  | [] => none
  | (k, v) :: rest => if k = key then some v else tomlLookup key rest

/-- A node of the modelled filesystem: a regular file (whose content either
parses as a TOML document or is invalid TOML), or a directory with its entry
names. -/
inductive FsNode where
  | file (content : Option TomlDoc)
  | dir (entries : List String)
deriving DecidableEq, Repr

/-- The modelled filesystem: the current working directory (as absolute-path
components) plus a finite map from normalized paths to nodes. -/
structure FileSystem where
  cwd : List String
  nodes : List (FsPath × FsNode)

/-- Look a path up in a node association list. -/
def lookupNodes : List (FsPath × FsNode) → FsPath → Option FsNode
  | [], _ => none
  | (q, n) :: rest, p => if q = p then some n else lookupNodes rest p

/-- Look a path up in the filesystem. -/
def FileSystem.lookup (fs : FileSystem) (p : FsPath) : Option FsNode :=
  lookupNodes fs.nodes p

/-- Make a path absolute against the current working directory. -/
def FileSystem.absolutize (fs : FileSystem) (p : FsPath) : FsPath :=
  if p.absolute then p else ⟨true, fs.cwd ++ p.components⟩

/-- The error values (anyhow errors) produced by the module, one constructor
per distinct failure site, carrying exactly the data interpolated into the
corresponding format string in the source. -/
inductive DutError where
  /-- `std::fs::read` or `canonicalize` failed on this path. -/
  | ioError (path : FsPath)
  /-- `toml::from_slice` failed: the bytes are not valid TOML. -/
  | tomlError
  /-- Serde schema failure: this field is missing or has the wrong shape. -/
  | schemaError (field : String)
  /-- `DebugProbeSelector::try_from` rejected the selector string. -/
  | invalidSelector (s : String)
  /-- `ensure!(!targets.is_empty(), "Unable to find any chip matching {}")`. -/
  | chipNotFound (query : String)
  /-- `bail!("Chip definition does not match exactly.")` — note the error
  value carries no candidate list; candidates are printed to stderr. -/
  | chipAmbiguous
  /-- `get_target_by_name` failed for this name. -/
  | registryError (name : String)
  /-- `ensure!(directory.is_dir(), ...)` in `collect`. -/
  | notADirectory (path : FsPath)
  /-- `.with_context(|| format!("Failed to parse definition ..."))` wrapping
  in `collect`. -/
  | withFileContext (path : FsPath) (inner : DutError)
deriving DecidableEq, Repr

/-- The rendered message chain of an error, following the format strings of
the source (anyhow renders the outermost context first). -/
def errMessage : DutError → String
  | .ioError p => "No such file or directory: " ++ pathString p
  | .tomlError => "TOML parse error"
  | .schemaError field => "missing or invalid field " ++ field
  | .invalidSelector s => "invalid debug probe selector " ++ s
  | .chipNotFound query => "Unable to find any chip matching " ++ query
  | .chipAmbiguous => "Chip definition does not match exactly."
  | .registryError name => "unknown target " ++ name
  | .notADirectory p =>
      "Unable to collect target definitions from path " ++ pathString p
        ++ ". Path is not a directory."
  | .withFileContext p e =>
      "Failed to parse definition " ++ pathString p ++ ": " ++ errMessage e

/-- Rust `fs::read` followed by nothing: reading succeeds only on regular
files; a missing path or a directory is an I/O error. -/
def FileSystem.readFile (fs : FileSystem) (p : FsPath) :
    Except DutError (Option TomlDoc) :=
  match fs.lookup p with
  | some (.file content) => .ok content
  | some (.dir _) => .error (.ioError p)
  | none => .error (.ioError p)

/-- Rust `Path::canonicalize`: make the path absolute and require that it
exists; a non-existent target is an I/O error. (Symlink resolution is not
modelled; stored paths are taken as already normalized.) -/
def FileSystem.canonicalize (fs : FileSystem) (p : FsPath) : Except DutError FsPath :=
  let q := fs.absolutize p
  if (fs.lookup q).isSome then .ok q else .error (.ioError q)

/-- The full target descriptor fetched from the chip registry
(`probe_rs::Target`, reduced to its identity). -/
structure Target where
  name : String
deriving DecidableEq, Repr

/-- Model of the probe-rs chip registry: the name → descriptor store, plus
the externally owned fuzzy match predicate used by `search_chips`. -/
structure ChipDb where
  chips : List (String × Target)
  matchesQuery : String → String → Bool

/-- `probe_rs::config::search_chips`: every registry name matching the query. -/
def search_chips (db : ChipDb) (query : String) : List String :=
  (db.chips.map fun c => c.1).filter fun name => db.matchesQuery query name

/-- `probe_rs::config::get_target_by_name`: exact fetch from the registry. -/
def get_target_by_name (db : ChipDb) (name : String) : Except DutError Target :=
  match db.chips.find? (fun c => c.1 == name) with
  | some c => .ok c.2
  | none => .error (.registryError name)

/-- `probe_rs::DebugProbeSelector`: vendor id, product id, optional serial. -/
structure DebugProbeSelector where
  vendorId : Nat
  productId : Nat
  serialNumber : Option String
deriving DecidableEq, Repr

/-- Value of a hexadecimal digit character, by code point: `0`-`9` are
48-57, `a`-`f` are 97-102, `A`-`F` are 65-70. -/
def hexDigit? (c : Char) : Option Nat :=
  let n := c.toNat
  if 48 ≤ n && n ≤ 57 then some (n - 48)
  else if 97 ≤ n && n ≤ 102 then some (n - 87)
  else if 65 ≤ n && n ≤ 70 then some (n - 55)
  else none

/-- Parse a non-empty hexadecimal numeral fitting in a `u16`
(Rust `u16::from_str_radix(s, 16)`). -/
def parseHexU16? (s : List Char) : Option Nat :=
  match s with
  | [] => none
  | _ =>
    (s.foldl (fun acc c => acc.bind fun n => (hexDigit? c).map fun d => 16 * n + d)
      (some 0)).bind fun n => if n < 65536 then some n else none

/-- The `DebugProbeSelector` grammar `<vid>:<pid>[:<serial>]` with `vid` and
`pid` hexadecimal `u16` values (`TryFrom<String> for DebugProbeSelector`). -/
def parseSelector (s : String) : Except DutError DebugProbeSelector :=
  match splitOnChar ':' s.data with
  | [v, p] =>
    match parseHexU16? v, parseHexU16? p with
    | some vid, some pid => .ok ⟨vid, pid, none⟩
    | _, _ => .error (.invalidSelector s)
  | [v, p, ser] =>
    match parseHexU16? v, parseHexU16? p with
    | some vid, some pid => .ok ⟨vid, pid, some ⟨ser⟩⟩
    | _, _ => .error (.invalidSelector s)
  | _ => .error (.invalidSelector s)

/-- `RawDutDefinition`: the three-field schema of a definition file. -/
structure RawDutDefinition where
  chip : String
  probe_selector : String
  flash_test_binary : Option String
deriving DecidableEq, Repr

/-- Serde deserialization of `RawDutDefinition` from a TOML table: `chip` and
`probe_selector` are required strings, `flash_test_binary` an optional
string; every other key is ignored (the derive does not deny unknown
fields). -/
def RawDutDefinition.fromToml (doc : TomlDoc) : Except DutError RawDutDefinition :=
  match tomlLookup "chip" doc with
  | some (.str chip) =>
    match tomlLookup "probe_selector" doc with
    | some (.str sel) =>
      match tomlLookup "flash_test_binary" doc with
      | none => .ok ⟨chip, sel, none⟩
      | some (.str bin) => .ok ⟨chip, sel, some bin⟩
      | some _ => .error (.schemaError "flash_test_binary")
    | some _ => .error (.schemaError "probe_selector")
    | none => .error (.schemaError "probe_selector")
  | some _ => .error (.schemaError "chip")
  | none => .error (.schemaError "chip")

/-- `RawDutDefinition::from_file`: read the file, then deserialize. -/
def RawDutDefinition.from_file (fs : FileSystem) (file : FsPath) :
    Except DutError RawDutDefinition :=
  match fs.readFile file with
  | .error e => .error e
  | .ok none => .error .tomlError
  | .ok (some doc) => RawDutDefinition.fromToml doc

/-- `DefinitionSource`: provenance of a definition. -/
inductive DefinitionSource where
  | file (path : FsPath)
  | cli
deriving DecidableEq, Repr

/-- `DutDefinition`: the resolved result. -/
structure DutDefinition where
  chip : Target
  probe_selector : DebugProbeSelector
  flash_test_binary : Option FsPath
  source : DefinitionSource
deriving DecidableEq, Repr

/-- The external capabilities resolution runs against. -/
structure Env where
  fs : FileSystem
  db : ChipDb

/-- The flash-test-binary step of `from_raw_definition`: an absolute path is
used as-is; a relative path is joined onto the source file's parent directory
(`Path::new(".")` when there is none) and canonicalized. -/
def resolveFlashBinary (fs : FileSystem) (source_file : FsPath) :
    Option String → Except DutError (Option FsPath)
  | none => .ok none
  | some s =>
    let path := pathFromString s
    if path.absolute then .ok (some path)
    else
      let source_file_directory := source_file.parent.getD curDirPath
      let flash_binary_location := source_file_directory.join path
      match fs.canonicalize flash_binary_location with
      | .ok canon => .ok (some canon)
      | .error e => .error e

/-- `DutDefinition::from_raw_definition`. The second component is the list of
lines printed to stderr (the `eprintln!` calls in the ambiguous-chip branch);
the first is the value returned to the caller. -/
def DutDefinition.from_raw_definition (env : Env) (raw : RawDutDefinition)
    (source_file : FsPath) : Except DutError DutDefinition × List String :=
  match parseSelector raw.probe_selector with
  | .error e => (.error e, [])
  | .ok probe_selector =>
    match search_chips env.db raw.chip with
    | [] => (.error (.chipNotFound raw.chip), [])
    | [single] =>
      match get_target_by_name env.db single with
      | .error e => (.error e, [])
      | .ok target =>
        match resolveFlashBinary env.fs source_file raw.flash_test_binary with
        | .error e => (.error e, [])
        | .ok flash_test_binary =>
          (.ok { chip := target, probe_selector := probe_selector,
                 flash_test_binary := flash_test_binary,
                 source := .file source_file }, [])
    | first :: second :: rest =>
      (.error .chipAmbiguous,
        ("For tests, chip definition must be exact. Chip name " ++ raw.chip
            ++ " matches multiple chips:")
          :: (first :: second :: rest).map fun t => "\t" ++ t)

/-- `DutDefinition::from_file`: parse the raw definition, then resolve it.
(The stderr side channel is dropped, as it is for the Rust caller.) -/
def DutDefinition.from_file (env : Env) (file : FsPath) :
    Except DutError DutDefinition :=
  match RawDutDefinition.from_file env.fs file with
  | .error e => .error e
  | .ok raw => (DutDefinition.from_raw_definition env raw file).1

/-- The loop of `DutDefinition::collect` over the directory's entries: skip
entries whose path extension is not `toml`; otherwise parse and resolve,
wrapping any failure with the file path as context and aborting. -/
def collectEntries (env : Env) (dir : FsPath) : List String → Except DutError (List DutDefinition)
  | [] => .ok []
  | name :: rest =>
    let file_path := dir.join ⟨false, [name]⟩
    if file_path.extension = some "toml" then
      match DutDefinition.from_file env file_path with
      | .error e => .error (.withFileContext file_path e)
      | .ok d => (collectEntries env dir rest).map fun ds => d :: ds
    else
      collectEntries env dir rest

/-- `DutDefinition::collect`: require a directory, then run the entry loop. -/
def DutDefinition.collect (env : Env) (directory : FsPath) :
    Except DutError (List DutDefinition) :=
  match env.fs.lookup directory with
  | some (.dir entries) => collectEntries env directory entries
  | _ => .error (.notADirectory directory)

/-! ### Concrete example environment used to exercise the definitions -/

/-- An example chip registry with two chips sharing a name stem and one
uniquely named chip; the match predicate is a leading-segment match. -/
def egDb : ChipDb :=
  { chips := [("STM32F103C8", ⟨"STM32F103C8"⟩), ("STM32F103C6", ⟨"STM32F103C6"⟩),
              ("NRF52840_xxAA", ⟨"NRF52840_xxAA"⟩)]
    matchesQuery := fun q n => startsWithL q.data n.data }

/-- Example TOML document of a valid definition file. -/
def egDoc : TomlDoc := [("chip", .str "NRF52840"), ("probe_selector", .str "0102:0304")]

/-- An example filesystem with: a definitions directory holding one valid
definition and a stray text file plus a flash binary; a directory mixing a
valid and an invalid definition; a directory of only non-definition files;
and a directory containing a subdirectory named like a definition file. -/
def egFs : FileSystem :=
  { cwd := ["home"]
    nodes := [
      (⟨true, ["defs"]⟩, .dir ["good.toml", "readme.txt"]),
      (⟨true, ["defs", "good.toml"]⟩, .file (some egDoc)),
      (⟨true, ["defs", "readme.txt"]⟩, .file none),
      (⟨true, ["defs", "bin", "test.bin"]⟩, .file none),
      (⟨true, ["mixed"]⟩, .dir ["a.toml", "bad.toml"]),
      (⟨true, ["mixed", "a.toml"]⟩, .file (some egDoc)),
      (⟨true, ["mixed", "bad.toml"]⟩, .file none),
      (⟨true, ["plain"]⟩, .dir ["readme.txt", "notes.md"]),
      (⟨true, ["plain", "readme.txt"]⟩, .file none),
      (⟨true, ["plain", "notes.md"]⟩, .file none),
      (⟨true, ["subdir"]⟩, .dir ["sub.toml"]),
      (⟨true, ["subdir", "sub.toml"]⟩, .dir [])] }

/-- The example environment. -/
def egEnv : Env := ⟨egFs, egDb⟩

/-- The valid definition file of the example environment. -/
def egFile : FsPath := ⟨true, ["defs", "good.toml"]⟩

/-- A raw definition whose chip query matches two registry chips. -/
def rawAmb : RawDutDefinition := ⟨"STM32F103", "0102:0304", none⟩

/-- A raw definition with an absolute, non-existent flash test binary. -/
def rawAbs : RawDutDefinition := ⟨"NRF52840", "0102:0304", some "/no/such/file"⟩

/-- A raw definition with a relative flash test binary that exists. -/
def rawRel : RawDutDefinition := ⟨"NRF52840", "0102:0304", some "bin/test.bin"⟩

/-- A raw definition with a relative flash test binary that does not exist. -/
def rawRelMissing : RawDutDefinition := ⟨"NRF52840", "0102:0304", some "bin/missing.bin"⟩

/-- A raw definition whose chip query matches exactly one registry chip. -/
def rawGood : RawDutDefinition := ⟨"NRF52840", "0102:0304", none⟩

/-- A raw definition whose chip query matches no registry chip. -/
def rawNone : RawDutDefinition := ⟨"XXXX", "0102:0304", none⟩

/-! ### Helper lemmas -/

theorem data_append (s t : String) : (s ++ t).data = s.data ++ t.data := by
  cases s
  cases t
  rfl

theorem startsWithL_self_append (n suf : List Char) :
    startsWithL n (n ++ suf) = true := by
  induction n with
  | nil => rfl
  | cons c cs ih => simp [startsWithL, ih]

theorem containsChunk_of_startsWithL (n h : List Char)
    (hs : startsWithL n h = true) : containsChunk n h = true := by
  cases h with
  | nil =>
    cases n with
    | nil => rfl
    | cons c cs => simp [startsWithL] at hs
  | cons b bs => simp [containsChunk, hs]

theorem containsChunk_self_append (n suf : List Char) :
    containsChunk n (n ++ suf) = true :=
  containsChunk_of_startsWithL n (n ++ suf) (startsWithL_self_append n suf)

theorem containsChunk_append_left (n pre h : List Char)
    (hc : containsChunk n h = true) : containsChunk n (pre ++ h) = true := by
  induction pre with
  | nil => simpa using hc
  | cons c cs ih => simp [containsChunk, ih]

theorem containsStr_right (pre s : String) : containsStr s (pre ++ s) = true := by
  unfold containsStr
  rw [data_append]
  exact containsChunk_append_left s.data pre.data s.data
    (by simpa using containsChunk_self_append s.data [])

theorem containsStr_chain (a s b c : String) :
    containsStr s (a ++ s ++ b ++ c) = true := by
  unfold containsStr
  rw [data_append, data_append, data_append, List.append_assoc, List.append_assoc]
  exact containsChunk_append_left s.data a.data (s.data ++ (b.data ++ c.data))
    (containsChunk_self_append s.data (b.data ++ c.data))

theorem find?_of_mem_keys (chips : List (String × Target)) (name : String)
    (h : name ∈ chips.map fun c => c.1) :
    ∃ t, chips.find? (fun c => c.1 == name) = some (name, t) := by
  induction chips with
  | nil => simp at h
  | cons c rest ih =>
    by_cases hc : c.1 = name
    · obtain ⟨k, t⟩ := c
      refine ⟨t, ?_⟩
      simp only at hc
      simp [List.find?, hc]
    · have hbeq : (c.1 == name) = false := by simpa using hc
      have hmem : name ∈ rest.map fun c => c.1 := by
        rcases List.mem_map.mp h with ⟨d, hd, hdn⟩
        rcases List.mem_cons.mp hd with hd | hd
        · exact absurd (hd ▸ hdn) hc
        · exact List.mem_map.mpr ⟨d, hd, hdn⟩
      obtain ⟨t, ht⟩ := ih hmem
      exact ⟨t, by simp [List.find?, hbeq, ht]⟩

theorem get_target_ok_of_search_singleton (db : ChipDb) (q name : String)
    (h : search_chips db q = [name]) :
    ∃ t, get_target_by_name db name = .ok t := by
  have hmem : name ∈ db.chips.map fun c => c.1 := by
    have hin : name ∈ search_chips db q := by rw [h]; exact List.mem_singleton.mpr rfl
    unfold search_chips at hin
    exact List.mem_of_mem_filter hin
  obtain ⟨t, ht⟩ := find?_of_mem_keys db.chips name hmem
  exact ⟨t, by unfold get_target_by_name; rw [ht]⟩

/-! ### Claim theorems about `from_raw_definition` -/

/-- C4: for a definition whose probe selector parses, whose chip query
matches exactly one chip in the database search, and whose flash test binary
resolves, resolution succeeds and the returned definition's `chip` is the
descriptor fetched by exact identifier for that single match. -/
theorem resolve_single_match (env : Env) (raw : RawDutDefinition) (f : FsPath)
    (sel : DebugProbeSelector) (name : String) (fb : Option FsPath)
    (hsel : parseSelector raw.probe_selector = .ok sel)
    (hsearch : search_chips env.db raw.chip = [name])
    (hflash : resolveFlashBinary env.fs f raw.flash_test_binary = .ok fb) :
    ∃ tgt, get_target_by_name env.db name = .ok tgt ∧
      (DutDefinition.from_raw_definition env raw f).1 =
        .ok { chip := tgt, probe_selector := sel, flash_test_binary := fb,
              source := .file f } := by
  obtain ⟨tgt, ht⟩ := get_target_ok_of_search_singleton env.db raw.chip name hsearch
  refine ⟨tgt, ht, ?_⟩
  simp [DutDefinition.from_raw_definition, hsel, hsearch, ht, hflash]

/-- C4 witness: the example environment's unique-match definition resolves
to the fetched `NRF52840_xxAA` descriptor. -/
theorem resolve_single_match_witness :
    ∃ tgt, get_target_by_name egEnv.db "NRF52840_xxAA" = .ok tgt ∧
      (DutDefinition.from_raw_definition egEnv rawGood egFile).1 =
        .ok { chip := tgt, probe_selector := ⟨258, 772, none⟩,
              flash_test_binary := none, source := .file egFile } :=
  resolve_single_match egEnv rawGood egFile ⟨258, 772, none⟩ "NRF52840_xxAA" none
    (by decide) (by decide) (by decide)

/-- C5: a chip query matching zero chips fails with `ChipNotFound`, and the
rendered error message surfaces the query string. -/
theorem resolve_chip_not_found (env : Env) (raw : RawDutDefinition) (f : FsPath)
    (sel : DebugProbeSelector)
    (hsel : parseSelector raw.probe_selector = .ok sel)
    (hsearch : search_chips env.db raw.chip = []) :
    (DutDefinition.from_raw_definition env raw f).1 = .error (.chipNotFound raw.chip) ∧
    containsStr raw.chip (errMessage (.chipNotFound raw.chip)) = true := by
  constructor
  · simp [DutDefinition.from_raw_definition, hsel, hsearch]
  · exact containsStr_right "Unable to find any chip matching " raw.chip

/-- C5 witness: the query `XXXX` matches nothing and fails with
`ChipNotFound` carrying the query. -/
theorem resolve_chip_not_found_witness :
    (DutDefinition.from_raw_definition egEnv rawNone egFile).1 =
      .error (.chipNotFound "XXXX") ∧
    containsStr "XXXX" (errMessage (.chipNotFound "XXXX")) = true :=
  resolve_chip_not_found egEnv rawNone egFile ⟨258, 772, none⟩ (by decide) (by decide)

/-- C1 counterexample: with the chip query `STM32F103` matching two chips,
the error value returned to the caller is the fixed `chipAmbiguous` message,
whose rendered text contains neither candidate name; the enumeration of the
candidates appears only in the stderr lines, which are not part of the
returned error. -/
theorem ambiguous_error_lacks_candidates :
    (DutDefinition.from_raw_definition egEnv rawAmb egFile).1 = .error .chipAmbiguous ∧
    containsStr "STM32F103C8" (errMessage .chipAmbiguous) = false ∧
    containsStr "STM32F103C6" (errMessage .chipAmbiguous) = false ∧
    (DutDefinition.from_raw_definition egEnv rawAmb egFile).2 =
      ["For tests, chip definition must be exact. Chip name STM32F103 matches multiple chips:",
       "\tSTM32F103C8", "\tSTM32F103C6"] := by
  decide

/-- C1 (amended): a chip query matching two or more chips makes resolution
fail with the fixed `Chip definition does not match exactly.` error, while
the full enumerated candidate list is printed to stderr, one candidate per
line after a header naming the query. -/
theorem resolve_ambiguous_chip (env : Env) (raw : RawDutDefinition) (f : FsPath)
    (sel : DebugProbeSelector) (n₁ n₂ : String) (ns : List String)
    (hsel : parseSelector raw.probe_selector = .ok sel)
    (hsearch : search_chips env.db raw.chip = n₁ :: n₂ :: ns) :
    DutDefinition.from_raw_definition env raw f =
      (.error .chipAmbiguous,
       ("For tests, chip definition must be exact. Chip name " ++ raw.chip
           ++ " matches multiple chips:")
         :: (n₁ :: n₂ :: ns).map fun t => "\t" ++ t) := by
  simp [DutDefinition.from_raw_definition, hsel, hsearch]

/-- C1 witness: the two-match query produces the fixed error and the two
stderr enumeration lines. -/
theorem resolve_ambiguous_chip_witness :
    DutDefinition.from_raw_definition egEnv rawAmb egFile =
      (.error .chipAmbiguous,
       ("For tests, chip definition must be exact. Chip name " ++ "STM32F103"
           ++ " matches multiple chips:")
         :: (["STM32F103C8", "STM32F103C6"].map fun t => "\t" ++ t)) :=
  resolve_ambiguous_chip egEnv rawAmb egFile ⟨258, 772, none⟩
    "STM32F103C8" "STM32F103C6" [] (by decide) (by decide)

/-- C2 counterexample: an absolute `flash_test_binary` path that does not
exist in the filesystem does not make resolution fail; the definition
resolves successfully and stores the absolute path exactly as written,
without canonicalization or an existence check. -/
theorem absolute_flash_binary_unchecked :
    egEnv.fs.lookup (pathFromString "/no/such/file") = none ∧
    (DutDefinition.from_raw_definition egEnv rawAbs egFile).1 =
      .ok { chip := ⟨"NRF52840_xxAA"⟩, probe_selector := ⟨258, 772, none⟩,
            flash_test_binary := some ⟨true, ["no", "such", "file"]⟩,
            source := .file egFile } := by
  decide

/-- C2 (amended): an absolute `flash_test_binary` path is used as-is: given
that the selector parses and the chip query matches exactly one chip,
resolution succeeds whether or not the path exists, and the stored
`flash_test_binary` is the path as written (never canonicalized). -/
theorem resolve_absolute_flash_as_is (env : Env) (raw : RawDutDefinition)
    (f : FsPath) (sel : DebugProbeSelector) (name : String) (tgt : Target)
    (s : String)
    (hsel : parseSelector raw.probe_selector = .ok sel)
    (hsearch : search_chips env.db raw.chip = [name])
    (hget : get_target_by_name env.db name = .ok tgt)
    (hbin : raw.flash_test_binary = some s)
    (habs : (pathFromString s).absolute = true) :
    (DutDefinition.from_raw_definition env raw f).1 =
      .ok { chip := tgt, probe_selector := sel,
            flash_test_binary := some (pathFromString s), source := .file f } := by
  have hflash : resolveFlashBinary env.fs f raw.flash_test_binary =
      .ok (some (pathFromString s)) := by
    rw [hbin]
    unfold resolveFlashBinary
    simp [habs]
  simp [DutDefinition.from_raw_definition, hsel, hsearch, hget, hflash]

/-- C2 witness: the non-existent absolute path `/no/such/file` is stored
as-is in a successful resolution. -/
theorem resolve_absolute_flash_as_is_witness :
    (DutDefinition.from_raw_definition egEnv rawAbs egFile).1 =
      .ok { chip := ⟨"NRF52840_xxAA"⟩, probe_selector := ⟨258, 772, none⟩,
            flash_test_binary := some (pathFromString "/no/such/file"),
            source := .file egFile } :=
  resolve_absolute_flash_as_is egEnv rawAbs egFile ⟨258, 772, none⟩
    "NRF52840_xxAA" ⟨"NRF52840_xxAA"⟩ "/no/such/file"
    (by decide) (by decide) (by decide) (by decide) (by decide)

/-- C3: a relative `flash_test_binary` path `p` is resolved against the
directory `D` containing the definition file: the stored path is the
canonicalization of `D/p` when that succeeds, and resolution fails with the
canonicalization's `IoError` when `D/p` does not exist. -/
theorem resolve_relative_flash (env : Env) (raw : RawDutDefinition) (f : FsPath)
    (sel : DebugProbeSelector) (name : String) (tgt : Target) (s : String)
    (hsel : parseSelector raw.probe_selector = .ok sel)
    (hsearch : search_chips env.db raw.chip = [name])
    (hget : get_target_by_name env.db name = .ok tgt)
    (hbin : raw.flash_test_binary = some s)
    (hrel : (pathFromString s).absolute = false) :
    (∀ c, env.fs.canonicalize ((f.parent.getD curDirPath).join (pathFromString s)) = .ok c →
      (DutDefinition.from_raw_definition env raw f).1 =
        .ok { chip := tgt, probe_selector := sel, flash_test_binary := some c,
              source := .file f }) ∧
    (env.fs.lookup (env.fs.absolutize ((f.parent.getD curDirPath).join (pathFromString s))) = none →
      (DutDefinition.from_raw_definition env raw f).1 =
        .error (.ioError (env.fs.absolutize ((f.parent.getD curDirPath).join (pathFromString s))))) := by
  constructor
  · intro c hc
    have hflash : resolveFlashBinary env.fs f raw.flash_test_binary = .ok (some c) := by
      rw [hbin]
      unfold resolveFlashBinary
      simp [hrel, hc]
    simp [DutDefinition.from_raw_definition, hsel, hsearch, hget, hflash]
  · intro hnone
    have hcanon : env.fs.canonicalize ((f.parent.getD curDirPath).join (pathFromString s)) =
        .error (.ioError (env.fs.absolutize ((f.parent.getD curDirPath).join (pathFromString s)))) := by
      unfold FileSystem.canonicalize
      simp [hnone]
    have hflash : resolveFlashBinary env.fs f raw.flash_test_binary =
        .error (.ioError (env.fs.absolutize ((f.parent.getD curDirPath).join (pathFromString s)))) := by
      rw [hbin]
      unfold resolveFlashBinary
      simp [hrel, hcanon]
    simp [DutDefinition.from_raw_definition, hsel, hsearch, hget, hflash]

/-- C3 witness: the relative path `bin/test.bin` next to
`/defs/good.toml` resolves to `/defs/bin/test.bin`, and the missing
relative path `bin/missing.bin` fails with an `IoError` on
`/defs/bin/missing.bin`. -/
theorem resolve_relative_flash_witness :
    (DutDefinition.from_raw_definition egEnv rawRel egFile).1 =
      .ok { chip := ⟨"NRF52840_xxAA"⟩, probe_selector := ⟨258, 772, none⟩,
            flash_test_binary := some ⟨true, ["defs", "bin", "test.bin"]⟩,
            source := .file egFile } ∧
    (DutDefinition.from_raw_definition egEnv rawRelMissing egFile).1 =
      .error (.ioError ⟨true, ["defs", "bin", "missing.bin"]⟩) := by
  constructor
  · exact (resolve_relative_flash egEnv rawRel egFile ⟨258, 772, none⟩
      "NRF52840_xxAA" ⟨"NRF52840_xxAA"⟩ "bin/test.bin"
      (by decide) (by decide) (by decide) rfl (by decide)).1
      ⟨true, ["defs", "bin", "test.bin"]⟩ (by decide)
  · have h := (resolve_relative_flash egEnv rawRelMissing egFile ⟨258, 772, none⟩
      "NRF52840_xxAA" ⟨"NRF52840_xxAA"⟩ "bin/missing.bin"
      (by decide) (by decide) (by decide) rfl (by decide)).2 (by decide)
    exact h.trans (by decide)

/-! ### Claim theorems about `collect` -/

theorem from_raw_definition_ok_source (env : Env) (raw : RawDutDefinition)
    (f : FsPath) (d : DutDefinition)
    (h : (DutDefinition.from_raw_definition env raw f).1 = .ok d) :
    d.source = .file f := by
  unfold DutDefinition.from_raw_definition at h
  repeat' split at h
  all_goals simp_all
  exact congrArg DutDefinition.source h.symm

theorem from_file_ok_source (env : Env) (p : FsPath) (d : DutDefinition)
    (h : DutDefinition.from_file env p = .ok d) : d.source = .file p := by
  unfold DutDefinition.from_file at h
  split at h
  · cases h
  · exact from_raw_definition_ok_source env _ p d h

theorem collectEntries_skip (env : Env) (dir : FsPath) (name : String)
    (rest : List String)
    (h : (FsPath.join dir ⟨false, [name]⟩).extension ≠ some "toml") :
    collectEntries env dir (name :: rest) = collectEntries env dir rest := by
  unfold collectEntries
  rw [if_neg h]
  conv_rhs => rw [← collectEntries.eq_def]

theorem collectEntries_nil_of_no_toml (env : Env) (dir : FsPath) :
    ∀ entries : List String,
    (∀ n ∈ entries, (FsPath.join dir ⟨false, [n]⟩).extension ≠ some "toml") →
    collectEntries env dir entries = .ok [] := by
  intro entries
  induction entries with
  | nil => intro _; rfl
  | cons n rest ih =>
    intro h
    rw [collectEntries_skip env dir n rest (h n (List.mem_cons_self n rest))]
    exact ih fun m hm => h m (List.mem_cons_of_mem n hm)

theorem collectEntries_error_of_mem (env : Env) (dir : FsPath) :
    ∀ (entries : List String) (name : String) (e : DutError),
    name ∈ entries →
    (FsPath.join dir ⟨false, [name]⟩).extension = some "toml" →
    DutDefinition.from_file env (FsPath.join dir ⟨false, [name]⟩) = .error e →
    ∃ p err, collectEntries env dir entries = .error (.withFileContext p err) ∧
      DutDefinition.from_file env p = .error err := by
  intro entries
  induction entries with
  | nil => intro name e hmem _ _; simp at hmem
  | cons n rest ih =>
    intro name e hmem hext hfail
    by_cases hn : (FsPath.join dir ⟨false, [n]⟩).extension = some "toml"
    · cases hf : DutDefinition.from_file env (FsPath.join dir ⟨false, [n]⟩) with
      | error e' =>
        refine ⟨FsPath.join dir ⟨false, [n]⟩, e', ?_, hf⟩
        unfold collectEntries
        simp [hn, hf]
      | ok d =>
        have hne : name ≠ n := by
          intro heq
          rw [heq] at hfail
          rw [hfail] at hf
          cases hf
        have hmem' : name ∈ rest := by
          rcases List.mem_cons.mp hmem with h | h
          · exact absurd h hne
          · exact h
        obtain ⟨p, err, hcol, hperr⟩ := ih name e hmem' hext hfail
        refine ⟨p, err, ?_, hperr⟩
        unfold collectEntries
        simp [hn, hf, hcol, Except.map]
    · have hne : name ≠ n := fun heq => hn (heq ▸ hext)
      have hmem' : name ∈ rest := by
        rcases List.mem_cons.mp hmem with h | h
        · exact absurd h hne
        · exact h
      obtain ⟨p, err, hcol, hperr⟩ := ih name e hmem' hext hfail
      refine ⟨p, err, ?_, hperr⟩
      rw [collectEntries_skip env dir n rest hn]
      exact hcol

theorem collectEntries_ok_all (env : Env) (dir : FsPath) :
    ∀ entries : List String,
    (∀ n ∈ entries, (FsPath.join dir ⟨false, [n]⟩).extension = some "toml" →
      ∃ d, DutDefinition.from_file env (FsPath.join dir ⟨false, [n]⟩) = .ok d) →
    ∃ ds, collectEntries env dir entries = .ok ds ∧
      ds.map (fun d => d.source) =
        (entries.filter fun n =>
            (FsPath.join dir ⟨false, [n]⟩).extension == some "toml").map
          fun n => DefinitionSource.file (FsPath.join dir ⟨false, [n]⟩) := by
  intro entries
  induction entries with
  | nil => intro _; exact ⟨[], rfl, rfl⟩
  | cons n rest ih =>
    intro h
    obtain ⟨ds, hds, hmap⟩ := ih fun m hm => h m (List.mem_cons_of_mem n hm)
    by_cases hn : (FsPath.join dir ⟨false, [n]⟩).extension = some "toml"
    · obtain ⟨d, hd⟩ := h n (List.mem_cons_self n rest) hn
      refine ⟨d :: ds, ?_, ?_⟩
      · unfold collectEntries
        simp [hn, hd, hds, Except.map]
      · have hsrc := from_file_ok_source env (FsPath.join dir ⟨false, [n]⟩) d hd
        have hb : ((FsPath.join dir ⟨false, [n]⟩).extension == some "toml") = true := by
          simpa using hn
        simp [List.filter, hb, hmap, hsrc]
    · have hb : ((FsPath.join dir ⟨false, [n]⟩).extension == some "toml") = false := by
        simpa using hn
      refine ⟨ds, ?_, ?_⟩
      · rw [collectEntries_skip env dir n rest hn]
        exact hds
      · simp [List.filter, hb, hmap]

/-- C6: if any directory entry with the definition extension fails parsing
or resolution, `collect` returns an error instead of a partial list; the
error wraps some failing file's path as context, and the rendered message
names that path. -/
theorem collect_aborts_on_failure (env : Env) (dir : FsPath)
    (entries : List String) (name : String) (e : DutError)
    (hdir : env.fs.lookup dir = some (.dir entries))
    (hmem : name ∈ entries)
    (hext : (FsPath.join dir ⟨false, [name]⟩).extension = some "toml")
    (hfail : DutDefinition.from_file env (FsPath.join dir ⟨false, [name]⟩) = .error e) :
    ∃ p err, DutDefinition.collect env dir = .error (.withFileContext p err) ∧
      DutDefinition.from_file env p = .error err ∧
      containsStr (pathString p) (errMessage (.withFileContext p err)) = true := by
  obtain ⟨p, err, hcol, hperr⟩ :=
    collectEntries_error_of_mem env dir entries name e hmem hext hfail
  refine ⟨p, err, ?_, hperr, ?_⟩
  · unfold DutDefinition.collect
    rw [hdir]
    exact hcol
  · exact containsStr_chain "Failed to parse definition " (pathString p) ": "
      (errMessage err)

/-- C6 witness: the `mixed` directory holds a valid `a.toml` and an invalid
`bad.toml`; collection aborts with an error wrapping the invalid file's
path. -/
theorem collect_aborts_on_failure_witness :
    ∃ p err, DutDefinition.collect egEnv ⟨true, ["mixed"]⟩ =
        .error (.withFileContext p err) ∧
      DutDefinition.from_file egEnv p = .error err ∧
      containsStr (pathString p) (errMessage (.withFileContext p err)) = true :=
  collect_aborts_on_failure egEnv ⟨true, ["mixed"]⟩ ["a.toml", "bad.toml"]
    "bad.toml" .tomlError (by decide) (by decide) (by decide) (by decide)

/-- C7: an entry whose extension is not `toml` is skipped without affecting
the result, and a directory whose entries all lack the `toml` extension
collects to the empty list, not an error. -/
theorem collect_skips_non_definition (env : Env) (dir : FsPath)
    (entries : List String) (name : String) (rest : List String)
    (hdir : env.fs.lookup dir = some (.dir entries))
    (hname : (FsPath.join dir ⟨false, [name]⟩).extension ≠ some "toml")
    (hall : ∀ n ∈ entries, (FsPath.join dir ⟨false, [n]⟩).extension ≠ some "toml") :
    collectEntries env dir (name :: rest) = collectEntries env dir rest ∧
    DutDefinition.collect env dir = .ok [] := by
  refine ⟨collectEntries_skip env dir name rest hname, ?_⟩
  unfold DutDefinition.collect
  rw [hdir]
  exact collectEntries_nil_of_no_toml env dir entries hall

/-- C7 witness: the `plain` directory holds only `readme.txt` and
`notes.md`; both are skipped and collection returns the empty list. -/
theorem collect_skips_non_definition_witness :
    collectEntries egEnv ⟨true, ["plain"]⟩ ["readme.txt", "notes.md"] =
      collectEntries egEnv ⟨true, ["plain"]⟩ ["notes.md"] ∧
    DutDefinition.collect egEnv ⟨true, ["plain"]⟩ = .ok [] :=
  collect_skips_non_definition egEnv ⟨true, ["plain"]⟩ ["readme.txt", "notes.md"]
    "readme.txt" ["notes.md"] (by decide) (by decide) (by decide)

/-- C8: when every `toml`-extension entry of a directory parses and resolves
successfully, `collect` returns exactly one definition per such entry, in
order, and each definition's `source` is `file` of the path it was loaded
from. -/
theorem collect_round_trip (env : Env) (dir : FsPath) (entries : List String)
    (hdir : env.fs.lookup dir = some (.dir entries))
    (hok : ∀ n ∈ entries, (FsPath.join dir ⟨false, [n]⟩).extension = some "toml" →
      ∃ d, DutDefinition.from_file env (FsPath.join dir ⟨false, [n]⟩) = .ok d) :
    ∃ ds, DutDefinition.collect env dir = .ok ds ∧
      ds.length = (entries.filter fun n =>
        (FsPath.join dir ⟨false, [n]⟩).extension == some "toml").length ∧
      ds.map (fun d => d.source) =
        (entries.filter fun n =>
            (FsPath.join dir ⟨false, [n]⟩).extension == some "toml").map
          fun n => DefinitionSource.file (FsPath.join dir ⟨false, [n]⟩) := by
  obtain ⟨ds, hds, hmap⟩ := collectEntries_ok_all env dir entries hok
  refine ⟨ds, ?_, ?_, hmap⟩
  · unfold DutDefinition.collect
    rw [hdir]
    exact hds
  · have hlen := congrArg List.length hmap
    simpa using hlen

/-- C8 witness: the `defs` directory holds one valid definition file and one
stray text file; collection returns exactly one definition, sourced from
`/defs/good.toml`. -/
theorem collect_round_trip_witness :
    ∃ ds, DutDefinition.collect egEnv ⟨true, ["defs"]⟩ = .ok ds ∧
      ds.length = ((["good.toml", "readme.txt"] : List String).filter fun n =>
        (FsPath.join ⟨true, ["defs"]⟩ ⟨false, [n]⟩).extension == some "toml").length ∧
      ds.map (fun d => d.source) =
        ((["good.toml", "readme.txt"] : List String).filter fun n =>
            (FsPath.join ⟨true, ["defs"]⟩ ⟨false, [n]⟩).extension == some "toml").map
          fun n => DefinitionSource.file (FsPath.join ⟨true, ["defs"]⟩ ⟨false, [n]⟩) := by
  refine collect_round_trip egEnv ⟨true, ["defs"]⟩ ["good.toml", "readme.txt"]
    (by decide) ?_
  intro n hn hx
  rcases List.mem_cons.mp hn with h | h
  · subst h
    exact ⟨{ chip := ⟨"NRF52840_xxAA"⟩, probe_selector := ⟨258, 772, none⟩,
             flash_test_binary := none, source := .file egFile }, by decide⟩
  · rcases List.mem_cons.mp h with h | h
    · subst h
      exact absurd hx (by decide)
    · simp at h

/-- C10: the collector's skip rule looks only at the entry's path extension,
not its node type: a directory entry named with the `toml` extension that is
itself a subdirectory is read as a definition file, the read fails with an
`IoError`, and the whole collection aborts with a context-wrapped error
instead of skipping the entry. -/
theorem collect_toml_subdir_fails (env : Env) (dir : FsPath)
    (entries : List String) (name : String) (sub : List String)
    (hdir : env.fs.lookup dir = some (.dir entries))
    (hmem : name ∈ entries)
    (hext : (FsPath.join dir ⟨false, [name]⟩).extension = some "toml")
    (hnode : env.fs.lookup (FsPath.join dir ⟨false, [name]⟩) = some (.dir sub)) :
    DutDefinition.from_file env (FsPath.join dir ⟨false, [name]⟩) =
      .error (.ioError (FsPath.join dir ⟨false, [name]⟩)) ∧
    ∃ p err, DutDefinition.collect env dir = .error (.withFileContext p err) := by
  have hread : env.fs.readFile (FsPath.join dir ⟨false, [name]⟩) =
      .error (.ioError (FsPath.join dir ⟨false, [name]⟩)) := by
    unfold FileSystem.readFile
    rw [hnode]
  have hraw : RawDutDefinition.from_file env.fs (FsPath.join dir ⟨false, [name]⟩) =
      .error (.ioError (FsPath.join dir ⟨false, [name]⟩)) := by
    unfold RawDutDefinition.from_file
    rw [hread]
  have hfail : DutDefinition.from_file env (FsPath.join dir ⟨false, [name]⟩) =
      .error (.ioError (FsPath.join dir ⟨false, [name]⟩)) := by
    unfold DutDefinition.from_file
    rw [hraw]
  refine ⟨hfail, ?_⟩
  obtain ⟨p, err, hcol, _⟩ :=
    collectEntries_error_of_mem env dir entries name _ hmem hext hfail
  refine ⟨p, err, ?_⟩
  unfold DutDefinition.collect
  rw [hdir]
  exact hcol

/-- C10 witness: the `subdir` directory holds a subdirectory named
`sub.toml`; the collector tries to read it and the collection aborts. -/
theorem collect_toml_subdir_fails_witness :
    DutDefinition.from_file egEnv (FsPath.join ⟨true, ["subdir"]⟩ ⟨false, ["sub.toml"]⟩) =
      .error (.ioError (FsPath.join ⟨true, ["subdir"]⟩ ⟨false, ["sub.toml"]⟩)) ∧
    ∃ p err, DutDefinition.collect egEnv ⟨true, ["subdir"]⟩ =
      .error (.withFileContext p err) :=
  collect_toml_subdir_fails egEnv ⟨true, ["subdir"]⟩ ["sub.toml"] "sub.toml" []
    (by decide) (by decide) (by decide) (by decide)

/-! ### Claim theorem about the raw definition schema -/

/-- C9: deserializing a definition document succeeds exactly when `chip` and
`probe_selector` are present as strings and `flash_test_binary`, when
present, is a string; and prepending any binding for an unknown key leaves
the parse result unchanged (unknown fields are ignored). -/
theorem raw_definition_schema (doc : TomlDoc) :
    ((∃ r, RawDutDefinition.fromToml doc = .ok r) ↔
      ((∃ c, tomlLookup "chip" doc = some (.str c)) ∧
       (∃ p, tomlLookup "probe_selector" doc = some (.str p)) ∧
       (tomlLookup "flash_test_binary" doc = none ∨
         ∃ b, tomlLookup "flash_test_binary" doc = some (.str b)))) ∧
    (∀ k v, k ≠ "chip" → k ≠ "probe_selector" → k ≠ "flash_test_binary" →
      RawDutDefinition.fromToml ((k, v) :: doc) = RawDutDefinition.fromToml doc) := by
  constructor
  · constructor
    · rintro ⟨r, hr⟩
      unfold RawDutDefinition.fromToml at hr
      repeat' split at hr
      all_goals first
        | exact ⟨⟨_, by assumption⟩, ⟨_, by assumption⟩, .inl (by assumption)⟩
        | exact ⟨⟨_, by assumption⟩, ⟨_, by assumption⟩, .inr ⟨_, by assumption⟩⟩
        | cases hr
    · rintro ⟨⟨c, hc⟩, ⟨p, hp⟩, hb⟩
      unfold RawDutDefinition.fromToml
      rw [hc, hp]
      rcases hb with hb | ⟨b, hb⟩ <;> rw [hb] <;> exact ⟨_, rfl⟩
  · intro k v hk hp hb
    have e1 : tomlLookup "chip" ((k, v) :: doc) = tomlLookup "chip" doc := by
      show (if k = "chip" then some v else tomlLookup "chip" doc) = tomlLookup "chip" doc
      exact if_neg hk
    have e2 : tomlLookup "probe_selector" ((k, v) :: doc) =
        tomlLookup "probe_selector" doc := by
      show (if k = "probe_selector" then some v else tomlLookup "probe_selector" doc) =
        tomlLookup "probe_selector" doc
      exact if_neg hp
    have e3 : tomlLookup "flash_test_binary" ((k, v) :: doc) =
        tomlLookup "flash_test_binary" doc := by
      show (if k = "flash_test_binary" then some v else tomlLookup "flash_test_binary" doc) =
        tomlLookup "flash_test_binary" doc
      exact if_neg hb
    unfold RawDutDefinition.fromToml
    rw [e1, e2, e3]

/-- C9 witness: the example document parses, and prepending an unknown
integer field leaves the parse result unchanged. -/
theorem raw_definition_schema_witness :
    (∃ r, RawDutDefinition.fromToml egDoc = .ok r) ∧
    RawDutDefinition.fromToml (("extra_field", .int 1) :: egDoc) =
      RawDutDefinition.fromToml egDoc := by
  constructor
  · exact (raw_definition_schema egDoc).1.mpr
      ⟨⟨"NRF52840", rfl⟩, ⟨"0102:0304", rfl⟩, .inl rfl⟩
  · exact (raw_definition_schema egDoc).2 "extra_field" (.int 1)
      (by decide) (by decide) (by decide)
